import Mathlib

/-!
# Verification of the energy-dashboard consumption/cost/source pipeline

Shallow embedding of the numeric core of the `energy-dashboard` repository:

* `config.py` — TOU rate table (`get_tou_period`, `is_summer`, `get_rate`,
  `EXCLUDE_REGISTERS`);
* `egauge_weekly_analysis.py` — `calculate_hourly_consumption`, the
  percentage/accumulation logic of `analyze_data`;
* `app.py` — the adjacent-pair diff loop of `fetch_egauge_today` (labels,
  partial-hour append, day filtering and the partial flag) and the
  opportunity ranking of `_build_history`;
* `solar_integration.py` — `_compute_battery_charge_source`, the two-pass
  `blend_egauge_with_solar`, and the hour-bucket interpolation of
  `process_cumulative` inside `build_hourly_solar_data`.

Numeric values are embedded as exact rationals (`ℚ`); the Python floats are
IEEE doubles, so spec tolerances like `±1e-6` correspond to exact identities
here.  Display-only rounding (`round(x, 2)` on report fields) is presentation
and is not modelled.  Dates/hours parsed out of timestamps by
`datetime.fromtimestamp` are carried as explicit fields on each reading,
mirroring the parsed-row dictionaries.
-/

namespace EnergyDashboard

/-- TOU period labels: the fixed set used throughout `config.py`. -/
inductive TouPeriod where
  | peak
  | part_peak
  | off_peak
deriving DecidableEq, Repr

/-- A calendar date as carried on parsed rows (`dt.date()`). Only the month
participates in rate selection (`is_summer`). -/
structure Date where
  year : Nat
  month : Nat
  day : Nat
deriving DecidableEq, Repr

/-- The rate/TOU configuration that `config.py` loads from `config.yml`
(module globals `_PEAK_HOURS`, `_PART_PEAK_HOURS`, `SUMMER_MONTHS`,
`WINTER_RATES`, `SUMMER_RATES`). -/
structure Config where
  peakHours : List Nat
  partPeakHours : List Nat
  summerMonths : List Nat
  winterRates : TouPeriod → ℚ
  summerRates : TouPeriod → ℚ

/-- The fallback values hard-coded in `config.py` (used when `config.yml`
omits a key): peak 16–20, part-peak 15,21–23, summer months 6–9, rates
0.63/0.60/0.40 for both seasons. -/
def defaultConfig : Config where
  peakHours := [16, 17, 18, 19, 20]
  partPeakHours := [15, 21, 22, 23]
  summerMonths := [6, 7, 8, 9]
  winterRates := fun p => match p with
    | .peak => 63/100
    | .part_peak => 60/100
    | .off_peak => 40/100
  summerRates := fun p => match p with
    | .peak => 63/100
    | .part_peak => 60/100
    | .off_peak => 40/100

/-- `config.get_tou_period(hour)`: peak-set membership first, then
part-peak, else off-peak. -/
def get_tou_period (cfg : Config) (hour : Nat) : TouPeriod :=
  if hour ∈ cfg.peakHours then .peak
  else if hour ∈ cfg.partPeakHours then .part_peak
  else .off_peak

/-- `config.is_summer(date)`: month membership in the summer-month set. -/
def is_summer (cfg : Config) (d : Date) : Bool :=
  d.month ∈ cfg.summerMonths

/-- `config.get_rate(date, tou_period)`: seasonal rate-set selection then
period lookup. -/
def get_rate (cfg : Config) (d : Date) (p : TouPeriod) : ℚ :=
  if is_summer cfg d then cfg.summerRates p else cfg.winterRates p

/-- `config.EXCLUDE_REGISTERS`: aggregate registers never differenced. -/
def EXCLUDE_REGISTERS : List String :=
  ["Usage [kWh]", "Generation [kWh]",
   "Total Power (Main) [kWh]", "Total Power (Aux) [kWh]"]

/-- Python's `str.endswith(suffix)`, computed on the character lists of the
strings. -/
def strEndsWith (s suffix : String) : Bool :=
  suffix.data.isSuffixOf s.data

/-- First-match association-list lookup (Python dict access `d[k]` /
`d.get(k)` on the small per-row mappings we model as lists). -/
def assocFind {α β : Type} [DecidableEq α] (k : α) : List (α × β) → Option β
  | [] => none
  | kv :: rest => if kv.1 = k then some kv.2 else assocFind k rest

/-- One parsed cumulative reading (one row of `parse_csv_data` /
`parse_egauge_rows`): the epoch timestamp plus the date/hour fields the
parser derives from it, and the register-name → cumulative-value mapping. -/
structure Row where
  timestamp : Int
  date : Date
  hour : Nat
  regs : List (String × ℚ)
deriving DecidableEq, Repr

/-- One derived hourly-consumption record as produced by
`calculate_hourly_consumption` (the labelling fields plus the per-register
consumption deltas). -/
structure HourRec where
  date : Date
  hour : Nat
  tou_period : TouPeriod
  regs : List (String × ℚ)
deriving DecidableEq, Repr

/-- The per-pair register differencing shared by both delta loops:
for each key of `curr` that ends in `[kWh]` and is not excluded, the
consumption is `abs(curr[key] - prev[key])` (the rows parsed out of one CSV
share a key set, so `prev` always has the key; a key absent from `prev` is
skipped here where Python would fault). -/
def regDelta (prev : List (String × ℚ)) : List (String × ℚ) → List (String × ℚ)
  | [] => []
  | kv :: rest =>
      if strEndsWith kv.1 "[kWh]" = true ∧ kv.1 ∉ EXCLUDE_REGISTERS then
        match assocFind kv.1 prev with
        | some pv => (kv.1, |kv.2 - pv|) :: regDelta prev rest
        | none => regDelta prev rest
      else regDelta prev rest

/-- `egauge_weekly_analysis.calculate_hourly_consumption`: for
`i in range(1, len(data))` build one record per adjacent pair
(`prev = data[i-1]`, `curr = data[i]`), labelled with **curr**'s
datetime/date/hour/tou_period, registers differenced by `regDelta`.
The `for i in range(1, n)` loop is the map over adjacent pairs
`data.zip data.tail`. -/
def calculate_hourly_consumption (cfg : Config) (data : List Row) : List HourRec :=
  (data.zip data.tail).map (fun pr =>
    { date := pr.2.date
      hour := pr.2.hour
      tou_period := get_tou_period cfg pr.2.hour
      regs := regDelta pr.1.regs pr.2.regs })

/-- `name = key.replace(" [kWh]", "")` on keys carrying the suffix. -/
def stripKwhSuffix (s : String) : String :=
  if strEndsWith s " [kWh]" then s.dropRight 6 else s

/-- One entry of the `hourly` list built inside `app.fetch_egauge_today`:
labelling fields, circuits as (name, kwh, cost), totals, and the
`partial` marker attached later in the day loop. -/
structure TodayEntry where
  hour : Nat
  date : Date
  tou_period : TouPeriod
  circuits : List (String × ℚ × ℚ)
  total_kwh : ℚ
  total_cost : ℚ
  partialFlag : Bool
deriving DecidableEq, Repr

/-- The body of the `app.fetch_egauge_today` diff loop for one adjacent pair:
`tou_period = get_tou_period(prev["hour"])`, labels from **prev**, per-circuit
cost `kwh * get_rate(prev["datetime"], tou_period)`, totals summed over the
circuits. -/
def mkTodayEntry (cfg : Config) (prev curr : Row) : TodayEntry :=
  let tou := get_tou_period cfg prev.hour
  let rate := get_rate cfg prev.date tou
  let circuits := (regDelta prev.regs curr.regs).map
    (fun kv => (stripKwhSuffix kv.1, kv.2, kv.2 * rate))
  { hour := prev.hour
    date := prev.date
    tou_period := tou
    circuits := circuits
    total_kwh := (circuits.map (fun c => c.2.1)).sum
    total_cost := (circuits.map (fun c => c.2.2)).sum
    partialFlag := false }

/-- The `for i in range(1, len(rows))` diff loop of `fetch_egauge_today`. -/
def todayDiff (cfg : Config) (rows : List Row) : List TodayEntry :=
  (rows.zip rows.tail).map (fun pr => mkTodayEntry cfg pr.1 pr.2)

/-- The partial-hour append of `fetch_egauge_today`: if the most recent
snapshot's timestamp is strictly newer than the last hourly-aligned row,
append it (`latest["datetime"] > rows[-1]["datetime"]`, guarded on `rows`
being non-empty). -/
def appendLatest (rows : List Row) (latest : Row) : List Row :=
  match rows.getLast? with
  | some lastRow =>
      if lastRow.timestamp < latest.timestamp then rows ++ [latest] else rows
  | none => rows

/-- The day filter plus partial-flag step of `fetch_egauge_today`: keep the
entries of the target date, and mark an entry partial exactly when building
today's data and its hour equals the current hour (and its date is the
target date). -/
def dayEntries (hourly : List TodayEntry) (target : Date) (nowHour : Nat)
    (isToday : Bool) : List TodayEntry :=
  (hourly.filter (fun h => h.date = target)).map (fun h =>
    { h with partialFlag :=
        isToday && decide (h.hour = nowHour) && decide (h.date = target) })

/-! ## Solar integration (`solar_integration.py`) -/

/-- One `SolarHourlyBucket` of `build_hourly_solar_data` (the five kWh
quantities; the `date`/`hour` fields live in the association key). -/
structure Bucket where
  solar_kwh : ℚ
  grid_import_kwh : ℚ
  grid_export_kwh : ℚ
  battery_charge_kwh : ℚ
  battery_discharge_kwh : ℚ
deriving DecidableEq, Repr

/-- `solar_integration._compute_battery_charge_source`: solar-vs-grid split
of one hour's battery charge under the Powerwall priority model. -/
def computeBatteryChargeSource (solar_kwh grid_import_kwh grid_export_kwh
    battery_charge_kwh battery_discharge_kwh : ℚ) : ℚ × ℚ :=
  if battery_charge_kwh ≤ 0 then (0, 0)
  else
    let solar_local := max 0 (solar_kwh - grid_export_kwh)
    let home_load := max 0 (solar_local + grid_import_kwh
      + battery_discharge_kwh - battery_charge_kwh)
    let solar_to_home := min solar_local home_load
    let solar_surplus := max 0 (solar_local - solar_to_home)
    let solar_to_battery := min solar_surplus battery_charge_kwh
    let grid_to_battery := max 0 (battery_charge_kwh - solar_to_battery)
    (solar_to_battery, grid_to_battery)

/-- The running accumulators of Pass 1 of `blend_egauge_with_solar`. -/
structure Pass1Acc where
  total_solar_to_battery : ℚ
  total_grid_to_battery : ℚ
  total_grid_charge_cost : ℚ
  total_charge_kwh : ℚ
  total_discharge_kwh : ℚ
deriving DecidableEq, Repr

/-- One iteration of the Pass-1 loop over `egauge_hourly`: skip hours with no
matching solar bucket, always accumulate charge/discharge, and attribute the
charge source (accumulating `grid_to_battery * rate`) when
`battery_charge_kwh > 0`. -/
def pass1Step (cfg : Config) (solar : List ((Date × Nat) × Bucket))
    (acc : Pass1Acc) (rec : HourRec) : Pass1Acc :=
  match assocFind (rec.date, rec.hour) solar with
  | none => acc
  | some s =>
      let rate := get_rate cfg rec.date rec.tou_period
      let acc1 : Pass1Acc :=
        { acc with
          total_charge_kwh := acc.total_charge_kwh + s.battery_charge_kwh
          total_discharge_kwh := acc.total_discharge_kwh + s.battery_discharge_kwh }
      if 0 < s.battery_charge_kwh then
        let p := computeBatteryChargeSource s.solar_kwh s.grid_import_kwh
          s.grid_export_kwh s.battery_charge_kwh s.battery_discharge_kwh
        { acc1 with
          total_solar_to_battery := acc1.total_solar_to_battery + p.1
          total_grid_to_battery := acc1.total_grid_to_battery + p.2
          total_grid_charge_cost := acc1.total_grid_charge_cost + p.2 * rate }
      else acc1

/-- Pass 1 of `blend_egauge_with_solar` (battery economics accumulation). -/
def pass1 (cfg : Config) (egauge_hourly : List HourRec)
    (solar : List ((Date × Nat) × Bucket)) : Pass1Acc :=
  egauge_hourly.foldl (pass1Step cfg solar) ⟨0, 0, 0, 0, 0⟩

/-- `battery_cost_per_kwh = total_grid_charge_cost / total_discharge_kwh`
(0 if no discharge). -/
def battery_cost_per_kwh (a : Pass1Acc) : ℚ :=
  if 0 < a.total_discharge_kwh then a.total_grid_charge_cost / a.total_discharge_kwh
  else 0

/-- `measured_efficiency = total_discharge_kwh / total_charge_kwh`
(0 if no charge). -/
def measured_efficiency (a : Pass1Acc) : ℚ :=
  if 0 < a.total_charge_kwh then a.total_discharge_kwh / a.total_charge_kwh
  else 0

/-- The hourly 3-way source mix of Pass 2, as (solar, grid, battery)
fractions: all-zero when `total_supply` is not positive, and 100% grid when
the hour has no matching solar bucket. -/
def sourceMix (s : Option Bucket) : ℚ × ℚ × ℚ :=
  match s with
  | some b =>
      let total_supply := b.solar_kwh + b.grid_import_kwh + b.battery_discharge_kwh
      if 0 < total_supply then
        (b.solar_kwh / total_supply, b.grid_import_kwh / total_supply,
         b.battery_discharge_kwh / total_supply)
      else (0, 0, 0)
  | none => (0, 1, 0)

/-- The per-register accumulator of Pass 2 (`register_stats[key]`).  The
`by_tou` sub-accumulators of the source receive the identical per-entry
updates split by period and are not referenced by any verified property, so
they are not repeated here. -/
structure BlendStats where
  total_kwh : ℚ
  grid_kwh : ℚ
  solar_kwh : ℚ
  battery_kwh : ℚ
  grid_cost : ℚ
  battery_cost : ℚ
  actual_cost : ℚ
  full_rate_cost : ℚ
  solar_savings : ℚ
deriving DecidableEq, Repr

/-- Zero-initialised `BlendStats` (the `defaultdict` initialiser). -/
def BlendStats.zero : BlendStats := ⟨0, 0, 0, 0, 0, 0, 0, 0, 0⟩

/-- The inner Pass-2 update for one `(key, kwh)` item of a record, restricted
to the register `k` being tracked (the `register_stats` dict is pointwise:
only items with this key touch this accumulator).  Mirrors the
`key.endswith('[kWh]')` guard and the cost splits of the source. -/
def blendEntryStep (rate bcpk : ℚ) (mix : ℚ × ℚ × ℚ) (k : String)
    (st : BlendStats) (kv : String × ℚ) : BlendStats :=
  if kv.1 = k ∧ strEndsWith kv.1 "[kWh]" = true then
    let kwh := kv.2
    let grid_fraction := mix.2.1
    let solar_fraction := mix.1
    let battery_fraction := mix.2.2
    let circuit_grid_kwh := kwh * grid_fraction
    let circuit_solar_kwh := kwh * solar_fraction
    let circuit_battery_kwh := kwh * battery_fraction
    let grid_cost := circuit_grid_kwh * rate
    let bat_cost := circuit_battery_kwh * bcpk
    let full_cost := kwh * rate
    { total_kwh := st.total_kwh + kwh
      grid_kwh := st.grid_kwh + circuit_grid_kwh
      solar_kwh := st.solar_kwh + circuit_solar_kwh
      battery_kwh := st.battery_kwh + circuit_battery_kwh
      grid_cost := st.grid_cost + grid_cost
      battery_cost := st.battery_cost + bat_cost
      actual_cost := st.actual_cost + (grid_cost + bat_cost)
      full_rate_cost := st.full_rate_cost + full_cost
      solar_savings := st.solar_savings + (full_cost - (grid_cost + bat_cost)) }
  else st

/-- The Pass-2 update for one hourly record: the hour's rate and source mix
applied to every register item of the record (restricted to register `k`). -/
def blendRecordStep (cfg : Config) (bcpk : ℚ)
    (solar : List ((Date × Nat) × Bucket)) (k : String)
    (st : BlendStats) (rec : HourRec) : BlendStats :=
  let rate := get_rate cfg rec.date rec.tou_period
  let mix := sourceMix (assocFind (rec.date, rec.hour) solar)
  rec.regs.foldl (blendEntryStep rate bcpk mix k) st

/-- The Pass-2 per-register statistics of `blend_egauge_with_solar` for
register `k`: the battery cost per kWh comes from Pass 1, then every hourly
record contributes through `blendRecordStep`. -/
def blendStatsFor (cfg : Config) (egauge_hourly : List HourRec)
    (solar : List ((Date × Nat) × Bucket)) (k : String) : BlendStats :=
  let bcpk := battery_cost_per_kwh (pass1 cfg egauge_hourly solar)
  egauge_hourly.foldl (blendRecordStep cfg bcpk solar k) BlendStats.zero

/-- The per-hour attribution rule as worded in the specification (§4.5
Pass 1), for comparison with `computeBatteryChargeSource`:
`solar_used_onsite = max(0, solar − grid_export)`;
`home_load = max(0, solar_used_onsite + grid_import + battery_discharge −
battery_charge)`; `solar_to_home = min(solar_used_onsite, home_load)`;
`solar_surplus = max(0, solar_used_onsite − solar_to_home)`;
`solar_to_battery = min(solar_surplus, battery_charge)`;
`grid_to_battery = battery_charge − solar_to_battery`. -/
def chargeSourceSpec (solar_kwh grid_import_kwh grid_export_kwh
    battery_charge_kwh battery_discharge_kwh : ℚ) : ℚ × ℚ :=
  let solar_used_onsite := max 0 (solar_kwh - grid_export_kwh)
  let home_load := max 0 (solar_used_onsite + grid_import_kwh
    + battery_discharge_kwh - battery_charge_kwh)
  let solar_to_home := min solar_used_onsite home_load
  let solar_surplus := max 0 (solar_used_onsite - solar_to_home)
  let solar_to_battery := min solar_surplus battery_charge_kwh
  (solar_to_battery, battery_charge_kwh - solar_to_battery)

/-- The hours contributing to Pass 1: hourly records paired with their
matching solar bucket, in record order. -/
def matchedBuckets (eg : List HourRec) (solar : List ((Date × Nat) × Bucket)) :
    List (HourRec × Bucket) :=
  eg.filterMap (fun r => (assocFind (r.date, r.hour) solar).map (fun b => (r, b)))

/-- Spec-side total battery charge: sum over matched hours. -/
def specTotalCharge (eg : List HourRec) (solar : List ((Date × Nat) × Bucket)) : ℚ :=
  ((matchedBuckets eg solar).map (fun rb => rb.2.battery_charge_kwh)).sum

/-- Spec-side total battery discharge: sum over matched hours. -/
def specTotalDischarge (eg : List HourRec) (solar : List ((Date × Nat) × Bucket)) : ℚ :=
  ((matchedBuckets eg solar).map (fun rb => rb.2.battery_discharge_kwh)).sum

/-- Spec-side total solar-to-battery: the spec rule summed over matched hours. -/
def specTotalSolarToBattery (eg : List HourRec)
    (solar : List ((Date × Nat) × Bucket)) : ℚ :=
  ((matchedBuckets eg solar).map (fun rb =>
    (chargeSourceSpec rb.2.solar_kwh rb.2.grid_import_kwh rb.2.grid_export_kwh
      rb.2.battery_charge_kwh rb.2.battery_discharge_kwh).1)).sum

/-- Spec-side total grid-to-battery: the spec rule summed over matched hours. -/
def specTotalGridToBattery (eg : List HourRec)
    (solar : List ((Date × Nat) × Bucket)) : ℚ :=
  ((matchedBuckets eg solar).map (fun rb =>
    (chargeSourceSpec rb.2.solar_kwh rb.2.grid_import_kwh rb.2.grid_export_kwh
      rb.2.battery_charge_kwh rb.2.battery_discharge_kwh).2)).sum

/-- Spec-side total grid-charge cost: `grid_to_battery × rate(hour)` summed
over matched hours. -/
def specGridChargeCost (cfg : Config) (eg : List HourRec)
    (solar : List ((Date × Nat) × Bucket)) : ℚ :=
  ((matchedBuckets eg solar).map (fun rb =>
    (chargeSourceSpec rb.2.solar_kwh rb.2.grid_import_kwh rb.2.grid_export_kwh
      rb.2.battery_charge_kwh rb.2.battery_discharge_kwh).2
      * get_rate cfg rb.1.date rb.1.tou_period)).sum

/-! ## Aggregator (`egauge_weekly_analysis.analyze_data`) -/

/-- The kWh one hourly record contributes to register `k`'s accumulators in
`analyze_data` (items with this key passing the `[kWh]`-suffix guard). -/
def hourRegKwh (rec : HourRec) (k : String) : ℚ :=
  ((rec.regs.filter (fun kv =>
    decide (kv.1 = k) && strEndsWith kv.1 "[kWh]")).map (fun kv => kv.2)).sum

/-- `register_stats[k]['total_kwh']` after the accumulation loop. -/
def regTotalKwh (hourly : List HourRec) (k : String) : ℚ :=
  (hourly.map (fun r => hourRegKwh r k)).sum

/-- `register_stats[k]['by_tou'][p]['kwh']` after the accumulation loop. -/
def regTouKwh (hourly : List HourRec) (k : String) (p : TouPeriod) : ℚ :=
  ((hourly.filter (fun r => decide (r.tou_period = p))).map
    (fun r => hourRegKwh r k)).sum

/-- `register_stats[k]['by_tou'][p]['percent']` after finalisation: set to
`kwh / total * 100` only when `total > 0`, otherwise left at its initial 0. -/
def regTouPercent (hourly : List HourRec) (k : String) (p : TouPeriod) : ℚ :=
  if 0 < regTotalKwh hourly k then
    regTouKwh hourly k p / regTotalKwh hourly k * 100
  else 0

/-! ## Opportunity ranking (`app._build_history`) -/

/-- One entry of the `circuits` list `_build_history` feeds the opportunity
loop (only the fields that loop reads or copies). -/
structure Circuit where
  name : String
  peak_pct : ℚ
  peak_cost : ℚ
  total_cost : ℚ
  avg_daily_cost : ℚ
deriving DecidableEq, Repr

/-- One entry of the `opportunities` list of `_build_history`. -/
structure Opportunity where
  circuit : String
  peak_pct : ℚ
  peak_cost : ℚ
  potential_savings : ℚ
  total_cost : ℚ
  avg_daily_cost : ℚ
deriving DecidableEq, Repr

/-- The sort relation of `opportunities.sort(key=potential_savings,
reverse=True)`: `a` may come before `b` iff its savings are ≥. -/
def oppOrder (a b : Opportunity) : Prop :=
  b.potential_savings ≤ a.potential_savings

instance : DecidableRel oppOrder := fun a b =>
  inferInstanceAs (Decidable (b.potential_savings ≤ a.potential_savings))

instance : IsTotal Opportunity oppOrder := ⟨fun _ _ => le_total _ _⟩

instance : IsTrans Opportunity oppOrder := ⟨fun _ _ _ h1 h2 => le_trans h2 h1⟩

/-- The opportunity built for one qualifying circuit: savings estimated at
the *current* date's rates (`get_rate(datetime.now(), ...)`), as
`peak_cost * (1 - off_peak_rate / peak_rate)`. -/
def opportunityFor (cfg : Config) (now : Date) (c : Circuit) : Opportunity :=
  let peak_rate := get_rate cfg now .peak
  let off_peak_rate := get_rate cfg now .off_peak
  { circuit := c.name
    peak_pct := c.peak_pct
    peak_cost := c.peak_cost
    potential_savings := c.peak_cost * (1 - off_peak_rate / peak_rate)
    total_cost := c.total_cost
    avg_daily_cost := c.avg_daily_cost }

/-- The opportunity computation of `_build_history`: keep circuits with
`peak_pct > 20` and `peak_cost > 1.0`, build their savings estimates in
circuit order, then stably sort descending by `potential_savings` (Python's
`list.sort` is stable; `insertionSort` is the stable sort realising it). -/
def buildOpportunities (cfg : Config) (now : Date) (circuits : List Circuit) :
    List Opportunity :=
  let opps := circuits.filterMap (fun c =>
    if 20 < c.peak_pct ∧ 1 < c.peak_cost then some (opportunityFor cfg now c)
    else none)
  opps.insertionSort oppOrder

/-! ## Telemetry bucketing (`solar_integration.process_cumulative`) -/

/-- The key of `readings.sort(key=lambda x: x[0])`: ascending timestamp. -/
def tsLE (a b : Nat × ℚ) : Prop :=
  a.1 ≤ b.1

instance : DecidableRel tsLE := fun a b =>
  inferInstanceAs (Decidable (a.1 ≤ b.1))

instance : IsTotal (Nat × ℚ) tsLE := ⟨fun a b => le_total a.1 b.1⟩

instance : IsTrans (Nat × ℚ) tsLE := ⟨fun _ _ _ h1 h2 => le_trans h1 h2⟩

/-- The `(date-string, hour)` bucket key of a timestamp, modelled on epoch
seconds: calendar day index and hour-of-day. -/
def hourKeyOf (t : Nat) : Nat × Nat :=
  (t / 86400, t % 86400 / 3600)

/-- The hour-by-hour walk of `process_cumulative`: starting at `t`, emit
`(segment start, segment seconds)` for each hour-aligned segment of
`[t, curr)`; each step advances to
`hour_end = min(floor-to-hour(t) + 1h, curr)`. -/
def hourSegs (t curr : Nat) : List (Nat × Nat) :=
  if h : t < curr then
    let he := min ((t / 3600 + 1) * 3600) curr
    (t, he - t) :: hourSegs he curr
  else []
termination_by curr - t
decreasing_by
  have hb : t < (t / 3600 + 1) * 3600 := by
    have h1 := (Nat.div_lt_iff_lt_mul (by norm_num : 0 < 3600)).mp
      (Nat.lt_succ_self (t / 3600))
    omega
  exact Nat.sub_lt_sub_left h (lt_min hb h)

/-- The contributions of one consecutive sample pair in
`process_cumulative`: skip non-positive deltas; same hour key → one
contribution of the full delta; different hour keys → the delta distributed
over the segments proportionally to duration
(`portion = delta * seg_seconds / total_seconds`). -/
def pairPortions (p c : Nat × ℚ) : List ((Nat × Nat) × ℚ) :=
  let delta := c.2 - p.2
  if delta ≤ 0 then []
  else if hourKeyOf p.1 = hourKeyOf c.1 then [(hourKeyOf c.1, delta)]
  else if c.1 - p.1 = 0 then []
  else (hourSegs p.1 c.1).map (fun sg =>
    (hourKeyOf sg.1, delta * (sg.2 : ℚ) / ((c.1 - p.1 : Nat) : ℚ)))

/-- `process_cumulative` for one quantity: require at least two samples,
sort ascending by timestamp (stable), then walk consecutive pairs emitting
bucket contributions in order. -/
def process_cumulative (history : List (Nat × ℚ)) : List ((Nat × Nat) × ℚ) :=
  if history.length < 2 then []
  else
    let readings := history.insertionSort tsLE
    ((readings.zip readings.tail).map (fun pr => pairPortions pr.1 pr.2)).flatten

/-- `hourly[key][field] += portion` on the bucket dictionary: add to an
existing bucket or append a fresh one (`ensure_bucket`). -/
def addPortion (buckets : List ((Nat × Nat) × ℚ)) (key : Nat × Nat) (v : ℚ) :
    List ((Nat × Nat) × ℚ) :=
  match buckets with
  | [] => [(key, v)]
  | kv :: rest =>
      if kv.1 = key then (kv.1, kv.2 + v) :: rest
      else kv :: addPortion rest key v

/-- Folding all contributions into the bucket dictionary. -/
def accumulatePortions (contribs : List ((Nat × Nat) × ℚ)) :
    List ((Nat × Nat) × ℚ) :=
  contribs.foldl (fun bs kv => addPortion bs kv.1 kv.2) []

/-- The per-quantity hourly buckets built by `build_hourly_solar_data` for
one cumulative counter. -/
def hourlyBucketsOf (history : List (Nat × ℚ)) : List ((Nat × Nat) × ℚ) :=
  accumulatePortions (process_cumulative history)

/-! ## Helper lemmas -/

theorem assocFind_eq_none {α β : Type} [DecidableEq α] {k : α} {l : List (α × β)}
    (h : ∀ kv ∈ l, kv.1 ≠ k) : assocFind k l = none := by
  induction l with
  | nil => rfl
  | cons kv rest ih =>
      simp only [assocFind]
      rw [if_neg (h kv (List.mem_cons_self kv rest))]
      exact ih (fun x hx => h x (List.mem_cons_of_mem kv hx))

theorem assocFind_mem {α β : Type} [DecidableEq α] {k : α} {l : List (α × β)}
    {b : β} (h : assocFind k l = some b) : (k, b) ∈ l := by
  induction l with
  | nil => cases h
  | cons kv rest ih =>
      simp only [assocFind] at h
      by_cases hk : kv.1 = k
      · rw [if_pos hk] at h
        obtain rfl := Option.some.inj h
        rw [← hk]
        exact List.mem_cons_self kv rest
      · rw [if_neg hk] at h
        exact List.mem_cons_of_mem kv (ih h)

/-- Every key produced by `regDelta` passes the suffix/exclusion guard. -/
theorem regDelta_keys {prev : List (String × ℚ)} :
    ∀ {curr : List (String × ℚ)}, ∀ kv ∈ regDelta prev curr,
      strEndsWith kv.1 "[kWh]" = true ∧ kv.1 ∉ EXCLUDE_REGISTERS := by
  intro curr
  induction curr with
  | nil => intro kv hkv; cases hkv
  | cons hd rest ih =>
      intro kv hkv
      by_cases hg : strEndsWith hd.1 "[kWh]" = true ∧ hd.1 ∉ EXCLUDE_REGISTERS
      · rw [regDelta, if_pos hg] at hkv
        cases hfind : assocFind hd.1 prev with
        | some pv =>
            rw [hfind] at hkv
            rcases List.mem_cons.mp hkv with rfl | hmem
            · exact hg
            · exact ih kv hmem
        | none =>
            rw [hfind] at hkv
            exact ih kv hkv
      · rw [regDelta, if_neg hg] at hkv
        exact ih kv hkv

/-- Register lookup in a `regDelta` output: a register present in both
readings (passing the guard) maps to the absolute difference. -/
theorem regDelta_lookup {prev : List (String × ℚ)} {k : String} {pv : ℚ}
    (hk : strEndsWith k "[kWh]" = true) (hx : k ∉ EXCLUDE_REGISTERS)
    (hp : assocFind k prev = some pv) :
    ∀ {curr : List (String × ℚ)} {cv : ℚ}, assocFind k curr = some cv →
      assocFind k (regDelta prev curr) = some |cv - pv| := by
  intro curr
  induction curr with
  | nil => intro cv hc; cases hc
  | cons hd rest ih =>
      intro cv hc
      simp only [assocFind] at hc
      by_cases hke : hd.1 = k
      · rw [if_pos hke] at hc
        obtain rfl := Option.some.inj hc
        have hg : strEndsWith hd.1 "[kWh]" = true ∧ hd.1 ∉ EXCLUDE_REGISTERS := by
          rw [hke]; exact ⟨hk, hx⟩
        rw [regDelta, if_pos hg, hke, hp]
        simp [assocFind]
      · rw [if_neg hke] at hc
        by_cases hg : strEndsWith hd.1 "[kWh]" = true ∧ hd.1 ∉ EXCLUDE_REGISTERS
        · rw [regDelta, if_pos hg]
          cases hfind : assocFind hd.1 prev with
          | some pv' => simp only [assocFind, if_neg hke]; exact ih hc
          | none => exact ih hc
        · rw [regDelta, if_neg hg]
          exact ih hc

/-- Unfolding one record of the period bucket accumulation. -/
theorem regTouKwh_cons (rec : HourRec) (rest : List HourRec) (k : String)
    (p : TouPeriod) :
    regTouKwh (rec :: rest) k p =
      (if rec.tou_period = p then hourRegKwh rec k else 0) + regTouKwh rest k p := by
  by_cases h : rec.tou_period = p
  · simp [regTouKwh, List.filter_cons, h]
  · simp [regTouKwh, List.filter_cons, h]

/-- Three-way TOU partition of a register's accumulated kWh: every hourly
record lands in exactly one period bucket of `analyze_data`. -/
theorem regTou_partition (hourly : List HourRec) (k : String) :
    regTouKwh hourly k .peak + regTouKwh hourly k .part_peak
      + regTouKwh hourly k .off_peak = regTotalKwh hourly k := by
  induction hourly with
  | nil => simp [regTouKwh, regTotalKwh]
  | cons rec rest ih =>
      simp only [regTouKwh_cons, regTotalKwh, List.map_cons, List.sum_cons]
      simp only [regTotalKwh] at ih
      cases h : rec.tou_period <;> simp [h] <;> linarith [ih]

/-! ## Example data used in witnesses and counterexamples -/

/-- A winter date (January is not in the summer-month set). -/
def exDate : Date := ⟨2025, 1, 6⟩

/-- A reading at 15:00 (part-peak hour) with one cumulative register. -/
def exRowA : Row :=
  { timestamp := 1000, date := exDate, hour := 15, regs := [("a [kWh]", 100)] }

/-- The next reading, one hour later at 16:00 (peak hour); the register
counted down to 98.5. -/
def exRowB : Row :=
  { timestamp := 4600, date := exDate, hour := 16, regs := [("a [kWh]", 197/2)] }

/-! ## C4 — behaviour on fewer than two readings -/

/-- **C4** (counterexample): on an empty reading sequence, and on a
single-reading sequence, `calculate_hourly_consumption` returns the plain
empty list — the very "silently proceed with empty output" the claim rules
out.  The source has no raising path and no distinguished "cannot compute"
value for short inputs. -/
theorem C4_counterexample :
    calculate_hourly_consumption defaultConfig [] = [] ∧
    calculate_hourly_consumption defaultConfig [exRowA] = [] :=
  ⟨rfl, rfl⟩

/-- **C4** (amended): given an empty reading sequence or a sequence with
fewer than 2 readings, the hourly delta computation returns the ordinary
empty list, with no error raised and no distinguished failure value. -/
theorem C4_short_input_returns_empty (cfg : Config) (data : List Row)
    (h : data.length < 2) : calculate_hourly_consumption cfg data = [] := by
  cases data with
  | nil => rfl
  | cons a tl =>
      cases tl with
      | nil => rfl
      | cons b t =>
          exfalso
          simp only [List.length_cons] at h
          omega

/-- Witness for `C4_short_input_returns_empty` at a concrete one-reading
input. -/
theorem C4_witness :
    ([exRowA] : List Row).length < 2 ∧
      calculate_hourly_consumption defaultConfig [exRowA] = [] :=
  ⟨by decide, C4_short_input_returns_empty defaultConfig [exRowA] (by decide)⟩

/-! ## C5 — one record per adjacent pair, abs-differencing, exclusions -/

/-- **C5** (confirmed): for a chronologically sorted sequence of `n ≥ 2`
readings, the engine produces exactly `n − 1` records (one per adjacent
pair, whose register set is `regDelta prev.regs curr.regs` by definition of
`calculate_hourly_consumption`); every energy register present in both
readings of a pair (with the `[kWh]` suffix, not excluded) appears with
consumption `abs(curr − prev)`, which is non-negative; and excluded
registers never appear in any output record's register set. -/
theorem C5_adjacent_pair_differencing (cfg : Config) (data : List Row)
    (hsorted : data.Pairwise (fun a b => a.timestamp ≤ b.timestamp))
    (h2 : 2 ≤ data.length) :
    (calculate_hourly_consumption cfg data).length = data.length - 1 ∧
    (∀ pr ∈ data.zip data.tail, ∀ (k : String) (cv pv : ℚ),
      strEndsWith k "[kWh]" = true → k ∉ EXCLUDE_REGISTERS →
      assocFind k pr.2.regs = some cv → assocFind k pr.1.regs = some pv →
      assocFind k (regDelta pr.1.regs pr.2.regs) = some |cv - pv| ∧
        0 ≤ |cv - pv|) ∧
    (∀ rec ∈ calculate_hourly_consumption cfg data, ∀ k ∈ EXCLUDE_REGISTERS,
      assocFind k rec.regs = none) := by
  refine ⟨?_, ?_, ?_⟩
  · simp only [calculate_hourly_consumption, List.length_map, List.length_zip,
      List.length_tail]
    omega
  · intro pr _ k cv pv hk hx hc hp
    exact ⟨regDelta_lookup hk hx hp hc, abs_nonneg _⟩
  · intro rec hrec k hkx
    simp only [calculate_hourly_consumption, List.mem_map] at hrec
    obtain ⟨pr, _, rfl⟩ := hrec
    apply assocFind_eq_none
    intro kv hkv hkk
    exact (regDelta_keys kv hkv).2 (by rw [hkk]; exact hkx)

/-- Witness for `C5_adjacent_pair_differencing` at a concrete sorted
two-reading input (the record count conclusion instantiated). -/
theorem C5_witness :
    (([exRowA, exRowB] : List Row).Pairwise (fun a b => a.timestamp ≤ b.timestamp) ∧
      2 ≤ ([exRowA, exRowB] : List Row).length) ∧
    (calculate_hourly_consumption defaultConfig [exRowA, exRowB]).length = 1 := by
  have h := C5_adjacent_pair_differencing defaultConfig [exRowA, exRowB]
    (by decide) (by decide)
  exact ⟨⟨by decide, by decide⟩, h.1⟩

/-! ## C9 — percent normalization in the aggregator -/

/-- **C9** (confirmed): for every register of `analyze_data`'s output, when
`total_kwh > 0` the three `by_tou` percent values sum to exactly 100 (the
spec's ±0.1 is float noise; the identity is exact over ℚ), and when
`total_kwh = 0` all three percent values keep their initial 0 (the guard
skips the division, so no division error can occur). -/
theorem C9_percent_normalization (hourly : List HourRec) (k : String) :
    (0 < regTotalKwh hourly k →
      regTouPercent hourly k .peak + regTouPercent hourly k .part_peak
        + regTouPercent hourly k .off_peak = 100) ∧
    (regTotalKwh hourly k = 0 → ∀ p, regTouPercent hourly k p = 0) := by
  constructor
  · intro hpos
    have hpart := regTou_partition hourly k
    have hne : regTotalKwh hourly k ≠ 0 := ne_of_gt hpos
    simp only [regTouPercent, if_pos hpos]
    field_simp
    linarith [hpart]
  · intro h0 p
    simp [regTouPercent, h0]

/-- Witness for `C9_percent_normalization`: a single peak-hour record with
2 kWh on one register; the percents sum to 100. -/
theorem C9_witness :
    0 < regTotalKwh [⟨exDate, 16, .peak, [("a [kWh]", 2)]⟩] "a [kWh]" ∧
    regTouPercent [⟨exDate, 16, .peak, [("a [kWh]", 2)]⟩] "a [kWh]" .peak
      + regTouPercent [⟨exDate, 16, .peak, [("a [kWh]", 2)]⟩] "a [kWh]" .part_peak
      + regTouPercent [⟨exDate, 16, .peak, [("a [kWh]", 2)]⟩] "a [kWh]" .off_peak
      = 100 := by
  have hpos : 0 < regTotalKwh [⟨exDate, 16, .peak, [("a [kWh]", 2)]⟩] "a [kWh]" := by
    norm_num [regTotalKwh, hourRegKwh, List.filter_cons, strEndsWith,
      List.isSuffixOf]
  exact ⟨hpos,
    (C9_percent_normalization [⟨exDate, 16, .peak, [("a [kWh]", 2)]⟩] "a [kWh]").1 hpos⟩

/-! ## C1 — slot labelling convention of the delta engines -/

/-- **C1** (counterexample): the weekly-analysis delta engine
(`calculate_hourly_consumption`) labels the record of the pair
(15:00 reading, 16:00 reading) with hour 16 and TOU period `peak` — the
**later** reading's hour and period — whereas the claim requires the
earlier reading's hour 15 and period `part_peak`. -/
theorem C1_counterexample :
    (calculate_hourly_consumption defaultConfig [exRowA, exRowB]).map
        (fun r => (r.hour, r.tou_period)) = [(16, TouPeriod.peak)] ∧
    exRowA.hour = 15 ∧
    get_tou_period defaultConfig exRowA.hour = TouPeriod.part_peak := by
  refine ⟨?_, rfl, by decide⟩
  simp [calculate_hourly_consumption, exRowA, exRowB, get_tou_period,
    defaultConfig]

/-- **C1** (amended): the labelling convention differs between the two delta
engines.  The `fetch_egauge_today` path labels every record with the
**earlier** reading's hour/date/TOU period and prices each register at
`kwh * rate(earlier date, earlier period)`; the weekly
`calculate_hourly_consumption` path labels every record with the **later**
reading's date, hour and TOU period. -/
theorem C1_labeling_convention (cfg : Config) (rows : List Row) :
    (∀ pr ∈ rows.zip rows.tail,
      (mkTodayEntry cfg pr.1 pr.2).hour = pr.1.hour ∧
      (mkTodayEntry cfg pr.1 pr.2).date = pr.1.date ∧
      (mkTodayEntry cfg pr.1 pr.2).tou_period = get_tou_period cfg pr.1.hour ∧
      ∀ c ∈ (mkTodayEntry cfg pr.1 pr.2).circuits,
        c.2.2 = c.2.1 * get_rate cfg pr.1.date (get_tou_period cfg pr.1.hour)) ∧
    (calculate_hourly_consumption cfg rows).map
        (fun r => (r.date, r.hour, r.tou_period)) =
      rows.tail.map (fun r => (r.date, r.hour, get_tou_period cfg r.hour)) := by
  constructor
  · intro pr _
    refine ⟨rfl, rfl, rfl, ?_⟩
    intro c hc
    simp only [mkTodayEntry, List.mem_map] at hc
    obtain ⟨kv, _, rfl⟩ := hc
    rfl
  · have hlen : rows.tail.length ≤ rows.length := by
      simp [List.length_tail]
    calc (calculate_hourly_consumption cfg rows).map
          (fun r => (r.date, r.hour, r.tou_period))
        = ((rows.zip rows.tail).map Prod.snd).map
            (fun r => (r.date, r.hour, get_tou_period cfg r.hour)) := by
          simp [calculate_hourly_consumption, Function.comp]
      _ = rows.tail.map (fun r => (r.date, r.hour, get_tou_period cfg r.hour)) := by
          rw [List.map_snd_zip _ _ hlen]

/-- Witness for `C1_labeling_convention` at the concrete pair
(`exRowA`, `exRowB`): the today-path entry carries the earlier hour 15,
the weekly-path record carries the later hour 16. -/
theorem C1_witness :
    (mkTodayEntry defaultConfig exRowA exRowB).hour = 15 ∧
    (calculate_hourly_consumption defaultConfig [exRowA, exRowB]).map
        (fun r => (r.date, r.hour, r.tou_period)) =
      [(exDate, 16, TouPeriod.peak)] := by
  have h := C1_labeling_convention defaultConfig [exRowA, exRowB]
  constructor
  · have h1 := (h.1 (exRowA, exRowB) (by simp)).1
    exact h1.trans rfl
  · rw [h.2]
    simp [exRowB, exDate, get_tou_period, defaultConfig]

/-! ## C8 — partial-hour fallback in the today pipeline -/

/-- Appending one element to a non-empty list adds exactly one adjacent
pair, between the old last element and the new one. -/
theorem zip_tail_append_last {α : Type} (x : α) :
    ∀ (l : List α) (b : α), l.getLast? = some b →
      (l ++ [x]).zip (l ++ [x]).tail = l.zip l.tail ++ [(b, x)] := by
  intro l
  induction l with
  | nil => intro b hb; cases hb
  | cons a t ih =>
      intro b hb
      cases t with
      | nil =>
          obtain rfl : a = b := by simpa [List.getLast?] using hb
          simp [List.zip]
      | cons c t' =>
          have hb' : (c :: t').getLast? = some b := by
            simpa [List.getLast?_cons_cons] using hb
          have hstep := ih b hb'
          simp only [List.cons_append, List.tail_cons, List.zip_cons_cons] at hstep ⊢
          rw [hstep]

/-- If no completed-hour record carries the current hour of the target day,
the day loop flags nothing as partial. -/
theorem dayEntries_flag_false {hourly : List TodayEntry} {target : Date}
    {nowHour : Nat} {isToday : Bool}
    (h : ∀ e ∈ hourly, ¬(e.hour = nowHour ∧ e.date = target)) :
    ∀ e ∈ dayEntries hourly target nowHour isToday, e.partialFlag = false := by
  intro e he
  simp only [dayEntries, List.mem_map, List.mem_filter] at he
  obtain ⟨a, ⟨ha, _⟩, rfl⟩ := he
  have hna := h a ha
  by_cases h1 : a.hour = nowHour
  · have h2 : a.date ≠ target := fun hd => hna ⟨h1, hd⟩
    simp [h2]
  · simp [h1]

/-- **C8** (confirmed): in the `fetch_egauge_today` pipeline, if the
most-recent snapshot is **not** strictly newer than the last hourly-aligned
reading it is not appended — the hourly count is exactly (boundary
readings − 1) and (under the timing fact that no completed record carries
the current hour) nothing is flagged partial; if it **is** strictly newer,
exactly one extra final record is produced (built from the last boundary
reading and the snapshot) and — when that last boundary reading sits in the
current hour of the target day — that final entry alone is flagged
partial. -/
theorem C8_partial_hour_fallback (cfg : Config) (rows : List Row)
    (latest lastRow : Row) (target : Date) (nowHour : Nat)
    (hlast : rows.getLast? = some lastRow) :
    (latest.timestamp ≤ lastRow.timestamp →
      appendLatest rows latest = rows ∧
      (todayDiff cfg (appendLatest rows latest)).length = rows.length - 1 ∧
      ((∀ e ∈ todayDiff cfg rows, ¬(e.hour = nowHour ∧ e.date = target)) →
        ∀ e ∈ dayEntries (todayDiff cfg (appendLatest rows latest)) target nowHour true,
          e.partialFlag = false)) ∧
    (lastRow.timestamp < latest.timestamp →
      appendLatest rows latest = rows ++ [latest] ∧
      todayDiff cfg (appendLatest rows latest)
        = todayDiff cfg rows ++ [mkTodayEntry cfg lastRow latest] ∧
      (todayDiff cfg (appendLatest rows latest)).length = rows.length ∧
      (lastRow.hour = nowHour → lastRow.date = target →
        (∀ e ∈ todayDiff cfg rows, ¬(e.hour = nowHour ∧ e.date = target)) →
        ∃ fe, dayEntries (todayDiff cfg (appendLatest rows latest)) target nowHour true
            = dayEntries (todayDiff cfg rows) target nowHour true ++ [fe] ∧
          fe.partialFlag = true ∧
          ∀ e ∈ dayEntries (todayDiff cfg rows) target nowHour true,
            e.partialFlag = false)) := by
  have hpos : 0 < rows.length := by
    cases rows with
    | nil => cases hlast
    | cons a t => simp
  constructor
  · intro hle
    have happ : appendLatest rows latest = rows := by
      simp only [appendLatest, hlast]
      rw [if_neg (not_lt.mpr hle)]
    refine ⟨happ, ?_, ?_⟩
    · rw [happ]
      simp only [todayDiff, List.length_map, List.length_zip, List.length_tail]
      omega
    · intro hnone
      rw [happ]
      exact dayEntries_flag_false hnone
  · intro hlt
    have happ : appendLatest rows latest = rows ++ [latest] := by
      simp only [appendLatest, hlast]
      rw [if_pos hlt]
    have hdiff : todayDiff cfg (appendLatest rows latest)
        = todayDiff cfg rows ++ [mkTodayEntry cfg lastRow latest] := by
      rw [happ]
      unfold todayDiff
      rw [zip_tail_append_last latest rows lastRow hlast, List.map_append]
      rfl
    refine ⟨happ, hdiff, ?_, ?_⟩
    · rw [hdiff]
      simp only [List.length_append, todayDiff, List.length_map, List.length_zip,
        List.length_tail, List.length_cons, List.length_nil]
      omega
    · intro hhour hdate hnone
      refine ⟨{ mkTodayEntry cfg lastRow latest with partialFlag := true }, ?_, rfl, ?_⟩
      · rw [hdiff]
        unfold dayEntries
        rw [List.filter_append, List.map_append]
        have hfd : (mkTodayEntry cfg lastRow latest).date = target := hdate
        have hfh : (mkTodayEntry cfg lastRow latest).hour = nowHour := hhour
        have hfilter : List.filter (fun h => decide (h.date = target))
            [mkTodayEntry cfg lastRow latest] = [mkTodayEntry cfg lastRow latest] := by
          simp [List.filter_cons, hfd]
        rw [hfilter]
        simp [hfd, hfh]
      · exact dayEntries_flag_false hnone

/-- A most-recent cumulative snapshot, strictly newer than `exRowB` and
inside the same (16:00) hour. -/
def exRowC : Row :=
  { timestamp := 6400, date := exDate, hour := 16, regs := [("a [kWh]", 98)] }

/-- Witness for `C8_partial_hour_fallback`: with boundary readings
`[exRowA, exRowB]` and the strictly newer snapshot `exRowC`, exactly one
extra final entry appears and it alone is flagged partial. -/
theorem C8_witness :
    exRowB.timestamp < exRowC.timestamp ∧
    ∃ fe, dayEntries (todayDiff defaultConfig (appendLatest [exRowA, exRowB] exRowC))
          exDate 16 true
        = dayEntries (todayDiff defaultConfig [exRowA, exRowB]) exDate 16 true ++ [fe] ∧
      fe.partialFlag = true ∧
      ∀ e ∈ dayEntries (todayDiff defaultConfig [exRowA, exRowB]) exDate 16 true,
        e.partialFlag = false := by
  have hnone : ∀ e ∈ todayDiff defaultConfig [exRowA, exRowB],
      ¬(e.hour = 16 ∧ e.date = exDate) := by
    intro e he
    simp only [todayDiff, List.zip_cons_cons, List.zip_nil_right, List.tail_cons,
      List.map_cons, List.map_nil, List.mem_cons, List.not_mem_nil, or_false] at he
    subst he
    simp [mkTodayEntry, exRowA]
  exact ⟨by decide,
    ((C8_partial_hour_fallback defaultConfig [exRowA, exRowB] exRowC exRowB exDate 16
      rfl).2 (by decide)).2.2.2 rfl rfl hnone⟩

/-! ## C3 — three-way source conservation in Pass 2 -/

/-- Generic fold-invariant preservation. -/
theorem foldl_preserve {α σ : Type} (P : σ → Prop) (f : σ → α → σ)
    (hstep : ∀ s a, P s → P (f s a)) :
    ∀ (l : List α) (s : σ), P s → P (l.foldl f s) := by
  intro l
  induction l with
  | nil => intro s h; exact h
  | cons a t ih => intro s h; exact ih _ (hstep s a h)

/-- A bucket with strictly positive total supply yields fractions summing
to exactly 1. -/
theorem sourceMix_sum_one {b : Bucket}
    (h : 0 < b.solar_kwh + b.grid_import_kwh + b.battery_discharge_kwh) :
    (sourceMix (some b)).1 + (sourceMix (some b)).2.1 + (sourceMix (some b)).2.2 = 1 := by
  have hne : b.solar_kwh + b.grid_import_kwh + b.battery_discharge_kwh ≠ 0 :=
    ne_of_gt h
  simp only [sourceMix, if_pos h]
  field_simp

/-- Fold-invariant preservation where the step property is only needed for
members of the folded list. -/
theorem foldl_preserve_mem {α σ : Type} (P : σ → Prop) (f : σ → α → σ) :
    ∀ (l : List α), (∀ s, ∀ a ∈ l, P s → P (f s a)) → ∀ s, P s → P (l.foldl f s) := by
  intro l
  induction l with
  | nil => intro _ s h; exact h
  | cons a t ih =>
      intro hstep s h
      exact ih (fun s' a' ha' hp => hstep s' a' (List.mem_cons_of_mem a ha') hp) _
        (hstep s a (List.mem_cons_self a t) h)

/-- When the bucket matched for a given key (if any) has strictly positive
supply, that hour's mix — matched or not — sums to 1. -/
theorem mix_sum_one_of_matched {solar : List ((Date × Nat) × Bucket)}
    {key : Date × Nat}
    (H : ∀ b, assocFind key solar = some b →
      0 < b.solar_kwh + b.grid_import_kwh + b.battery_discharge_kwh) :
    (sourceMix (assocFind key solar)).1 + (sourceMix (assocFind key solar)).2.1
      + (sourceMix (assocFind key solar)).2.2 = 1 := by
  cases hf : assocFind key solar with
  | none => simp [sourceMix]
  | some b => exact sourceMix_sum_one (H b hf)

/-- One Pass-2 item preserves 3-way kWh conservation when the hour's mix
sums to 1. -/
theorem blendEntryStep_conserve {rate bcpk : ℚ} {mix : ℚ × ℚ × ℚ} {k : String}
    (hmix : mix.1 + mix.2.1 + mix.2.2 = 1) (st : BlendStats) (kv : String × ℚ)
    (hP : st.grid_kwh + st.solar_kwh + st.battery_kwh = st.total_kwh) :
    (blendEntryStep rate bcpk mix k st kv).grid_kwh
      + (blendEntryStep rate bcpk mix k st kv).solar_kwh
      + (blendEntryStep rate bcpk mix k st kv).battery_kwh
      = (blendEntryStep rate bcpk mix k st kv).total_kwh := by
  unfold blendEntryStep
  split_ifs with h
  · simp only
    have hk : kv.2 * mix.2.1 + kv.2 * mix.1 + kv.2 * mix.2.2 = kv.2 := by
      have : kv.2 * mix.2.1 + kv.2 * mix.1 + kv.2 * mix.2.2
          = kv.2 * (mix.1 + mix.2.1 + mix.2.2) := by ring
      rw [this, hmix, mul_one]
    linarith [hk, hP]
  · exact hP

/-- **C3** (amended): every hour with strictly positive total supply has
source fractions summing to exactly 1; and **provided** every *matched*
solar bucket — one returned by the hour lookup for some record of the
consumption data — has strictly positive total supply, every register's
blended `grid_kwh + solar_kwh + battery_kwh` equals its `total_kwh`
exactly.  Unmatched buckets are unconstrained.  (The proviso is forced: a
matched hour whose bucket has zero supply gets the all-zero mix, so
consumption in that hour is counted in `total_kwh` but attributed to no
source — see the counterexample.) -/
theorem C3_three_way_source_conservation (cfg : Config) (eg : List HourRec)
    (solar : List ((Date × Nat) × Bucket))
    (H : ∀ rec ∈ eg, ∀ b, assocFind (rec.date, rec.hour) solar = some b →
      0 < b.solar_kwh + b.grid_import_kwh + b.battery_discharge_kwh) :
    (∀ b : Bucket, 0 < b.solar_kwh + b.grid_import_kwh + b.battery_discharge_kwh →
      (sourceMix (some b)).1 + (sourceMix (some b)).2.1 + (sourceMix (some b)).2.2 = 1) ∧
    (∀ k : String,
      (blendStatsFor cfg eg solar k).grid_kwh + (blendStatsFor cfg eg solar k).solar_kwh
        + (blendStatsFor cfg eg solar k).battery_kwh
        = (blendStatsFor cfg eg solar k).total_kwh) := by
  refine ⟨fun b hb => sourceMix_sum_one hb, fun k => ?_⟩
  unfold blendStatsFor
  apply foldl_preserve_mem
    (fun st : BlendStats =>
      st.grid_kwh + st.solar_kwh + st.battery_kwh = st.total_kwh)
  · intro st rec hrec hP
    unfold blendRecordStep
    apply foldl_preserve
      (fun st : BlendStats =>
        st.grid_kwh + st.solar_kwh + st.battery_kwh = st.total_kwh)
    · intro st' kv hP'
      exact blendEntryStep_conserve (mix_sum_one_of_matched (H rec hrec)) st' kv hP'
    · exact hP
  · simp [BlendStats.zero]

/-- **C3** (counterexample): one matched off-peak hour whose solar bucket
has zero total supply (only `battery_charge_kwh = 1` is non-zero) while the
register consumes 1 kWh.  The hour gets the all-zero source mix, so the
blended output has `total_kwh = 1` but `grid_kwh + solar_kwh + battery_kwh
= 0` — off by 1, far beyond the claimed 1e-6 tolerance. -/
theorem C3_counterexample :
    (blendStatsFor defaultConfig [⟨exDate, 0, .off_peak, [("a [kWh]", 1)]⟩]
      [((exDate, 0), ⟨0, 0, 0, 1, 0⟩)] "a [kWh]").total_kwh = 1 ∧
    (blendStatsFor defaultConfig [⟨exDate, 0, .off_peak, [("a [kWh]", 1)]⟩]
        [((exDate, 0), ⟨0, 0, 0, 1, 0⟩)] "a [kWh]").grid_kwh
      + (blendStatsFor defaultConfig [⟨exDate, 0, .off_peak, [("a [kWh]", 1)]⟩]
        [((exDate, 0), ⟨0, 0, 0, 1, 0⟩)] "a [kWh]").solar_kwh
      + (blendStatsFor defaultConfig [⟨exDate, 0, .off_peak, [("a [kWh]", 1)]⟩]
        [((exDate, 0), ⟨0, 0, 0, 1, 0⟩)] "a [kWh]").battery_kwh = 0 ∧
    ¬ |(blendStatsFor defaultConfig [⟨exDate, 0, .off_peak, [("a [kWh]", 1)]⟩]
          [((exDate, 0), ⟨0, 0, 0, 1, 0⟩)] "a [kWh]").grid_kwh
        + (blendStatsFor defaultConfig [⟨exDate, 0, .off_peak, [("a [kWh]", 1)]⟩]
          [((exDate, 0), ⟨0, 0, 0, 1, 0⟩)] "a [kWh]").solar_kwh
        + (blendStatsFor defaultConfig [⟨exDate, 0, .off_peak, [("a [kWh]", 1)]⟩]
          [((exDate, 0), ⟨0, 0, 0, 1, 0⟩)] "a [kWh]").battery_kwh
        - (blendStatsFor defaultConfig [⟨exDate, 0, .off_peak, [("a [kWh]", 1)]⟩]
          [((exDate, 0), ⟨0, 0, 0, 1, 0⟩)] "a [kWh]").total_kwh| ≤ 1/1000000 := by
  refine ⟨?_, ?_, ?_⟩ <;>
    norm_num [blendStatsFor, pass1, pass1Step, assocFind, computeBatteryChargeSource,
      battery_cost_per_kwh, blendRecordStep, blendEntryStep, sourceMix, get_rate,
      is_summer, strEndsWith, BlendStats.zero, exDate, List.foldl_cons,
      List.foldl_nil, List.isSuffixOf]

/-- Witness for `C3_three_way_source_conservation`: one matched off-peak
hour with supply 2 kWh of solar + 1 kWh of grid, one register consuming
1.5 kWh (the spec's Scenario C shape). -/
theorem C3_witness :
    (∀ rec ∈ ([⟨exDate, 0, .off_peak, [("a [kWh]", 3/2)]⟩] : List HourRec),
      ∀ b, assocFind (rec.date, rec.hour)
          ([((exDate, 0), ⟨2, 1, 0, 0, 0⟩)] : List ((Date × Nat) × Bucket)) = some b →
        0 < b.solar_kwh + b.grid_import_kwh + b.battery_discharge_kwh) ∧
    ((blendStatsFor defaultConfig [⟨exDate, 0, .off_peak, [("a [kWh]", 3/2)]⟩]
        [((exDate, 0), ⟨2, 1, 0, 0, 0⟩)] "a [kWh]").grid_kwh
      + (blendStatsFor defaultConfig [⟨exDate, 0, .off_peak, [("a [kWh]", 3/2)]⟩]
        [((exDate, 0), ⟨2, 1, 0, 0, 0⟩)] "a [kWh]").solar_kwh
      + (blendStatsFor defaultConfig [⟨exDate, 0, .off_peak, [("a [kWh]", 3/2)]⟩]
        [((exDate, 0), ⟨2, 1, 0, 0, 0⟩)] "a [kWh]").battery_kwh
      = (blendStatsFor defaultConfig [⟨exDate, 0, .off_peak, [("a [kWh]", 3/2)]⟩]
        [((exDate, 0), ⟨2, 1, 0, 0, 0⟩)] "a [kWh]").total_kwh) := by
  have H : ∀ rec ∈ ([⟨exDate, 0, .off_peak, [("a [kWh]", 3/2)]⟩] : List HourRec),
      ∀ b, assocFind (rec.date, rec.hour)
          ([((exDate, 0), ⟨2, 1, 0, 0, 0⟩)] : List ((Date × Nat) × Bucket)) = some b →
        0 < b.solar_kwh + b.grid_import_kwh + b.battery_discharge_kwh := by
    intro rec hrec b hf
    simp only [List.mem_cons, List.not_mem_nil, or_false] at hrec
    subst hrec
    norm_num [assocFind] at hf
    subst hf
    norm_num
  exact ⟨H, (C3_three_way_source_conservation defaultConfig
    [⟨exDate, 0, .off_peak, [("a [kWh]", 3/2)]⟩]
    [((exDate, 0), ⟨2, 1, 0, 0, 0⟩)] H).2 "a [kWh]"⟩

/-! ## C2 — savings monotonicity in Pass 2 -/

/-- With non-negative bucket quantities, every hour's source fractions are
non-negative and the grid + battery fractions sum to at most 1. -/
theorem mix_bounds {solar : List ((Date × Nat) × Bucket)}
    (Hb : ∀ kb ∈ solar, 0 ≤ kb.2.solar_kwh ∧ 0 ≤ kb.2.grid_import_kwh ∧
      0 ≤ kb.2.battery_discharge_kwh)
    (key : Date × Nat) :
    0 ≤ (sourceMix (assocFind key solar)).1 ∧
    0 ≤ (sourceMix (assocFind key solar)).2.1 ∧
    0 ≤ (sourceMix (assocFind key solar)).2.2 ∧
    (sourceMix (assocFind key solar)).2.1 + (sourceMix (assocFind key solar)).2.2 ≤ 1 := by
  cases hf : assocFind key solar with
  | none => simp [sourceMix]
  | some b =>
      obtain ⟨hs, hg, hd⟩ := Hb (key, b) (assocFind_mem hf)
      simp only [sourceMix]
      by_cases hsup : 0 < b.solar_kwh + b.grid_import_kwh + b.battery_discharge_kwh
      · rw [if_pos hsup]
        refine ⟨div_nonneg hs hsup.le, div_nonneg hg hsup.le, div_nonneg hd hsup.le, ?_⟩
        rw [div_add_div_same, div_le_one hsup]
        linarith
      · rw [if_neg hsup]
        norm_num

/-- One Pass-2 item preserves `actual_cost ≤ full_rate_cost` (and the
savings bookkeeping identity) when the hour's rate is non-negative, the
battery cost per kWh does not exceed that rate, the fractions are bounded,
and the consumption is non-negative. -/
theorem blendEntryStep_savings {rate bcpk : ℚ} {mix : ℚ × ℚ × ℚ} {k : String}
    (hrate : 0 ≤ rate) (hbc : bcpk ≤ rate)
    (hm : 0 ≤ mix.1 ∧ 0 ≤ mix.2.1 ∧ 0 ≤ mix.2.2 ∧ mix.2.1 + mix.2.2 ≤ 1)
    (st : BlendStats) (kv : String × ℚ) (hkv : 0 ≤ kv.2)
    (hP : st.actual_cost ≤ st.full_rate_cost ∧
      st.solar_savings = st.full_rate_cost - st.actual_cost) :
    (blendEntryStep rate bcpk mix k st kv).actual_cost
      ≤ (blendEntryStep rate bcpk mix k st kv).full_rate_cost ∧
    (blendEntryStep rate bcpk mix k st kv).solar_savings
      = (blendEntryStep rate bcpk mix k st kv).full_rate_cost
        - (blendEntryStep rate bcpk mix k st kv).actual_cost := by
  unfold blendEntryStep
  split_ifs with h
  · simp only
    obtain ⟨hm1, hm2, hm3, hm4⟩ := hm
    have hbat : kv.2 * mix.2.2 * bcpk ≤ kv.2 * mix.2.2 * rate :=
      mul_le_mul_of_nonneg_left hbc (mul_nonneg hkv hm3)
    have hkr : 0 ≤ kv.2 * rate := mul_nonneg hkv hrate
    have hsum : kv.2 * mix.2.1 * rate + kv.2 * mix.2.2 * rate ≤ kv.2 * rate := by
      have he : kv.2 * mix.2.1 * rate + kv.2 * mix.2.2 * rate
          = (mix.2.1 + mix.2.2) * (kv.2 * rate) := by ring
      rw [he]
      calc (mix.2.1 + mix.2.2) * (kv.2 * rate) ≤ 1 * (kv.2 * rate) :=
            mul_le_mul_of_nonneg_right hm4 hkr
        _ = kv.2 * rate := one_mul _
    constructor
    · linarith [hP.1]
    · linarith [hP.2]
  · exact hP

/-- **C2** (amended): `actual_cost ≤ full_rate_cost` (equivalently
`solar_savings ≥ 0`) holds per register whenever the bucket quantities are
non-negative (so all source fractions lie in [0,1]), the applicable hourly
rates are non-negative, per-register consumptions are non-negative,
**and** the Pass-1 derived `battery_cost_per_kwh` does not exceed the
applicable hourly rate.  The extra proviso is forced: a battery charged
from the grid (plus round-trip losses) can make the derived per-kWh
discharge cost exceed the rate, at which point battery-fed consumption
costs more than grid-fed — see the counterexample. -/
theorem C2_savings_monotonicity (cfg : Config) (eg : List HourRec)
    (solar : List ((Date × Nat) × Bucket))
    (Hb : ∀ kb ∈ solar, 0 ≤ kb.2.solar_kwh ∧ 0 ≤ kb.2.grid_import_kwh ∧
      0 ≤ kb.2.battery_discharge_kwh)
    (Hr : ∀ rec ∈ eg, 0 ≤ get_rate cfg rec.date rec.tou_period ∧
      battery_cost_per_kwh (pass1 cfg eg solar) ≤ get_rate cfg rec.date rec.tou_period)
    (Hk : ∀ rec ∈ eg, ∀ kv ∈ rec.regs, 0 ≤ kv.2) :
    ∀ k : String,
      (blendStatsFor cfg eg solar k).actual_cost
        ≤ (blendStatsFor cfg eg solar k).full_rate_cost ∧
      0 ≤ (blendStatsFor cfg eg solar k).solar_savings := by
  intro k
  have main : (blendStatsFor cfg eg solar k).actual_cost
        ≤ (blendStatsFor cfg eg solar k).full_rate_cost ∧
      (blendStatsFor cfg eg solar k).solar_savings
        = (blendStatsFor cfg eg solar k).full_rate_cost
          - (blendStatsFor cfg eg solar k).actual_cost := by
    simp only [blendStatsFor]
    apply foldl_preserve_mem
      (fun st : BlendStats => st.actual_cost ≤ st.full_rate_cost ∧
        st.solar_savings = st.full_rate_cost - st.actual_cost)
    · intro st rec hrec hP
      unfold blendRecordStep
      apply foldl_preserve_mem
        (fun st : BlendStats => st.actual_cost ≤ st.full_rate_cost ∧
          st.solar_savings = st.full_rate_cost - st.actual_cost)
      · intro st' kv hkv hP'
        exact blendEntryStep_savings (Hr rec hrec).1 (Hr rec hrec).2
          (mix_bounds Hb (rec.date, rec.hour)) st' kv (Hk rec hrec kv hkv) hP'
      · exact hP
    · simp [BlendStats.zero]
  exact ⟨main.1, by linarith [main.1, main.2]⟩

/-- Hourly records for the C2 scenarios: an empty-register hour 0 (the
battery activity hour) followed by hour 1 with 1 kWh on one register.  Both
hours are winter off-peak (rate 0.40). -/
def c2Eg : List HourRec :=
  [⟨exDate, 0, .off_peak, []⟩, ⟨exDate, 1, .off_peak, [("a [kWh]", 1)]⟩]

/-- Solar buckets for the C2 counterexample: hour 0 charges 10 kWh entirely
from the grid (import 10, solar 0); hour 1 discharges only 1 kWh (heavy
loss), supplying the home all by battery. -/
def c2SolarBad : List ((Date × Nat) × Bucket) :=
  [((exDate, 0), ⟨0, 10, 0, 10, 0⟩), ((exDate, 1), ⟨0, 0, 0, 0, 1⟩)]

/-- **C2** (counterexample): with the grid-charged battery of `c2SolarBad`
(10 kWh in at rate 0.40 → cost 4, only 1 kWh out, so
`battery_cost_per_kwh = 4`), the register consuming 1 kWh of battery power
in hour 1 accumulates `actual_cost = 4` against `full_rate_cost = 0.4` —
`actual_cost > full_rate_cost` and `solar_savings < 0` even though every
configured rate and credit is non-negative and every source fraction lies
in [0,1]. -/
theorem C2_counterexample :
    (∀ kb ∈ c2SolarBad, 0 ≤ kb.2.solar_kwh ∧ 0 ≤ kb.2.grid_import_kwh ∧
      0 ≤ kb.2.grid_export_kwh ∧ 0 ≤ kb.2.battery_charge_kwh ∧
      0 ≤ kb.2.battery_discharge_kwh) ∧
    (∀ rec ∈ c2Eg, 0 ≤ get_rate defaultConfig rec.date rec.tou_period) ∧
    (blendStatsFor defaultConfig c2Eg c2SolarBad "a [kWh]").actual_cost = 4 ∧
    (blendStatsFor defaultConfig c2Eg c2SolarBad "a [kWh]").full_rate_cost = 2/5 ∧
    ¬ ((blendStatsFor defaultConfig c2Eg c2SolarBad "a [kWh]").actual_cost
        ≤ (blendStatsFor defaultConfig c2Eg c2SolarBad "a [kWh]").full_rate_cost) ∧
    (blendStatsFor defaultConfig c2Eg c2SolarBad "a [kWh]").solar_savings < 0 := by
  refine ⟨?_, ?_, ?_, ?_, ?_, ?_⟩
  · intro kb hkb
    simp only [c2SolarBad, List.mem_cons, List.not_mem_nil, or_false] at hkb
    rcases hkb with rfl | rfl <;> norm_num
  · intro rec hrec
    simp only [c2Eg, List.mem_cons, List.not_mem_nil, or_false] at hrec
    rcases hrec with rfl | rfl <;>
      norm_num [get_rate, is_summer, exDate, defaultConfig]
  all_goals
    norm_num [blendStatsFor, pass1, pass1Step, assocFind, computeBatteryChargeSource,
      battery_cost_per_kwh, blendRecordStep, blendEntryStep, sourceMix, get_rate,
      is_summer, strEndsWith, BlendStats.zero, exDate, c2Eg, c2SolarBad,
      defaultConfig, List.foldl_cons, List.foldl_nil, List.isSuffixOf]

/-- Solar buckets for the C2 witness: hour 0 charges 5 kWh entirely from
solar surplus (10 kWh solar, no import/export), hour 1 discharges 1 kWh;
the derived battery cost per kWh is 0. -/
def c2SolarGood : List ((Date × Nat) × Bucket) :=
  [((exDate, 0), ⟨10, 0, 0, 5, 0⟩), ((exDate, 1), ⟨0, 0, 0, 0, 1⟩)]

/-- Witness for `C2_savings_monotonicity`: with the solar-charged battery of
`c2SolarGood` all hypotheses hold (derived battery cost 0 ≤ rate 0.40) and
the register's actual cost stays below its full-rate cost. -/
theorem C2_witness :
    (∀ kb ∈ c2SolarGood, 0 ≤ kb.2.solar_kwh ∧ 0 ≤ kb.2.grid_import_kwh ∧
      0 ≤ kb.2.battery_discharge_kwh) ∧
    (∀ rec ∈ c2Eg, 0 ≤ get_rate defaultConfig rec.date rec.tou_period ∧
      battery_cost_per_kwh (pass1 defaultConfig c2Eg c2SolarGood)
        ≤ get_rate defaultConfig rec.date rec.tou_period) ∧
    (∀ rec ∈ c2Eg, ∀ kv ∈ rec.regs, 0 ≤ kv.2) ∧
    ((blendStatsFor defaultConfig c2Eg c2SolarGood "a [kWh]").actual_cost
        ≤ (blendStatsFor defaultConfig c2Eg c2SolarGood "a [kWh]").full_rate_cost ∧
      0 ≤ (blendStatsFor defaultConfig c2Eg c2SolarGood "a [kWh]").solar_savings) := by
  have Hb : ∀ kb ∈ c2SolarGood, 0 ≤ kb.2.solar_kwh ∧ 0 ≤ kb.2.grid_import_kwh ∧
      0 ≤ kb.2.battery_discharge_kwh := by
    intro kb hkb
    simp only [c2SolarGood, List.mem_cons, List.not_mem_nil, or_false] at hkb
    rcases hkb with rfl | rfl <;> norm_num
  have Hr : ∀ rec ∈ c2Eg, 0 ≤ get_rate defaultConfig rec.date rec.tou_period ∧
      battery_cost_per_kwh (pass1 defaultConfig c2Eg c2SolarGood)
        ≤ get_rate defaultConfig rec.date rec.tou_period := by
    intro rec hrec
    simp only [c2Eg, List.mem_cons, List.not_mem_nil, or_false] at hrec
    rcases hrec with rfl | rfl <;>
      norm_num [get_rate, is_summer, exDate, defaultConfig, pass1, pass1Step,
        assocFind, computeBatteryChargeSource, battery_cost_per_kwh, c2Eg,
        c2SolarGood, List.foldl_cons, List.foldl_nil]
  have Hk : ∀ rec ∈ c2Eg, ∀ kv ∈ rec.regs, 0 ≤ kv.2 := by
    intro rec hrec kv hkv
    simp only [c2Eg, List.mem_cons, List.not_mem_nil, or_false] at hrec
    rcases hrec with rfl | rfl
    · exact absurd hkv (List.not_mem_nil kv)
    · simp only [List.mem_cons, List.not_mem_nil, or_false] at hkv
      subst hkv
      norm_num
  exact ⟨Hb, Hr, Hk,
    C2_savings_monotonicity defaultConfig c2Eg c2SolarGood Hb Hr Hk "a [kWh]"⟩

/-! ## C6 — Pass-1 battery economics -/

/-- The code's charge-source attribution agrees with the spec's worded rule
for every non-negative battery charge (the code's early return at charge 0
and its extra `max 0` on `grid_to_battery` are both redundant there). -/
theorem computeBatteryChargeSource_eq_spec (s gi ge bc bd : ℚ) (hbc : 0 ≤ bc) :
    computeBatteryChargeSource s gi ge bc bd = chargeSourceSpec s gi ge bc bd := by
  simp only [computeBatteryChargeSource, chargeSourceSpec]
  by_cases h : bc ≤ 0
  · have hbc0 : bc = 0 := le_antisymm h hbc
    subst hbc0
    rw [if_pos le_rfl]
    have hm : min (max 0 (max 0 (s - ge) - min (max 0 (s - ge))
        (max 0 (max 0 (s - ge) + gi + bd - 0)))) 0 = 0 :=
      min_eq_right (le_max_left _ _)
    rw [hm]
    norm_num
  · rw [if_neg h]
    refine Prod.ext rfl ?_
    exact max_eq_right (sub_nonneg.mpr (min_le_right _ _))

/-- The Pass-1 fold computes exactly the spec-side sums over matched hours
(on top of any starting accumulator), provided bucket charges are
non-negative. -/
theorem pass1_foldl_spec (cfg : Config) (solar : List ((Date × Nat) × Bucket))
    (Hbc : ∀ kb ∈ solar, 0 ≤ kb.2.battery_charge_kwh) :
    ∀ (eg : List HourRec) (acc : Pass1Acc),
      eg.foldl (pass1Step cfg solar) acc =
        { total_solar_to_battery :=
            acc.total_solar_to_battery + specTotalSolarToBattery eg solar
          total_grid_to_battery :=
            acc.total_grid_to_battery + specTotalGridToBattery eg solar
          total_grid_charge_cost :=
            acc.total_grid_charge_cost + specGridChargeCost cfg eg solar
          total_charge_kwh := acc.total_charge_kwh + specTotalCharge eg solar
          total_discharge_kwh :=
            acc.total_discharge_kwh + specTotalDischarge eg solar } := by
  intro eg
  induction eg with
  | nil =>
      intro acc
      simp [specTotalSolarToBattery, specTotalGridToBattery, specGridChargeCost,
        specTotalCharge, specTotalDischarge, matchedBuckets]
  | cons rec rest ih =>
      intro acc
      rw [List.foldl_cons, ih]
      cases hf : assocFind (rec.date, rec.hour) solar with
      | none =>
          simp [pass1Step, hf, specTotalSolarToBattery, specTotalGridToBattery,
            specGridChargeCost, specTotalCharge, specTotalDischarge,
            matchedBuckets, List.filterMap_cons]
      | some b =>
          have hb0 := Hbc ((rec.date, rec.hour), b) (assocFind_mem hf)
          have heq := computeBatteryChargeSource_eq_spec b.solar_kwh
            b.grid_import_kwh b.grid_export_kwh b.battery_charge_kwh
            b.battery_discharge_kwh hb0
          by_cases hbc : 0 < b.battery_charge_kwh
          · simp only [pass1Step, hf, if_pos hbc, specTotalSolarToBattery,
              specTotalGridToBattery, specGridChargeCost, specTotalCharge,
              specTotalDischarge, matchedBuckets, List.filterMap_cons,
              Option.map_some', List.map_cons, List.sum_cons, heq]
            simp only [Pass1Acc.mk.injEq]
            refine ⟨by ring, by ring, by ring, by ring, by ring⟩
          · have hbc0 : b.battery_charge_kwh = 0 := le_antisymm (not_lt.mp hbc) hb0
            have hspec0 : chargeSourceSpec b.solar_kwh b.grid_import_kwh
                b.grid_export_kwh 0 b.battery_discharge_kwh = (0, 0) := by
              rw [← hbc0, ← heq]
              simp [computeBatteryChargeSource, hbc0]
            simp only [pass1Step, hf, hbc0, lt_self_iff_false, if_false,
              specTotalSolarToBattery, specTotalGridToBattery, specGridChargeCost,
              specTotalCharge, specTotalDischarge, matchedBuckets,
              List.filterMap_cons, Option.map_some', List.map_cons,
              List.sum_cons, hspec0]
            simp only [Pass1Acc.mk.injEq]
            refine ⟨by ring, by ring, by ring, by ring, by ring⟩

/-- **C6** (confirmed): given non-negative bucket charges, the per-hour
charge-source attribution equals the spec's energy-balance rule, the Pass-1
accumulators equal the spec-side sums over the hours where both a
consumption slot and a solar bucket exist, and the derived
`battery_cost_per_kwh` and `measured_efficiency` are the claimed ratios
with their zero guards. -/
theorem C6_pass1_battery_economics (cfg : Config) (eg : List HourRec)
    (solar : List ((Date × Nat) × Bucket))
    (Hbc : ∀ kb ∈ solar, 0 ≤ kb.2.battery_charge_kwh) :
    (∀ s gi ge bc bd : ℚ, 0 ≤ bc →
      computeBatteryChargeSource s gi ge bc bd = chargeSourceSpec s gi ge bc bd) ∧
    pass1 cfg eg solar =
      { total_solar_to_battery := specTotalSolarToBattery eg solar
        total_grid_to_battery := specTotalGridToBattery eg solar
        total_grid_charge_cost := specGridChargeCost cfg eg solar
        total_charge_kwh := specTotalCharge eg solar
        total_discharge_kwh := specTotalDischarge eg solar } ∧
    battery_cost_per_kwh (pass1 cfg eg solar)
      = (if 0 < specTotalDischarge eg solar
          then specGridChargeCost cfg eg solar / specTotalDischarge eg solar
          else 0) ∧
    measured_efficiency (pass1 cfg eg solar)
      = (if 0 < specTotalCharge eg solar
          then specTotalDischarge eg solar / specTotalCharge eg solar
          else 0) := by
  have hp : pass1 cfg eg solar =
      { total_solar_to_battery := specTotalSolarToBattery eg solar
        total_grid_to_battery := specTotalGridToBattery eg solar
        total_grid_charge_cost := specGridChargeCost cfg eg solar
        total_charge_kwh := specTotalCharge eg solar
        total_discharge_kwh := specTotalDischarge eg solar } := by
    unfold pass1
    rw [pass1_foldl_spec cfg solar Hbc eg ⟨0, 0, 0, 0, 0⟩]
    simp only [Pass1Acc.mk.injEq]
    norm_num
  refine ⟨fun s gi ge bc bd h => computeBatteryChargeSource_eq_spec s gi ge bc bd h,
    hp, ?_, ?_⟩
  · rw [battery_cost_per_kwh, hp]
  · rw [measured_efficiency, hp]

/-- Witness for `C6_pass1_battery_economics` at the spec's Scenario D: one
matched off-peak hour with grid import 1, battery charge 1, discharge 0.9.
The attribution puts the whole charge on the grid, the measured efficiency
is 0.9, and the battery discharge cost is (1 × 0.40) / 0.9 = 4/9. -/
theorem C6_witness :
    (∀ kb ∈ ([((exDate, 0), ⟨0, 1, 0, 1, 9/10⟩)] : List ((Date × Nat) × Bucket)),
      0 ≤ kb.2.battery_charge_kwh) ∧
    measured_efficiency (pass1 defaultConfig [⟨exDate, 0, .off_peak, []⟩]
      [((exDate, 0), ⟨0, 1, 0, 1, 9/10⟩)]) = 9/10 ∧
    battery_cost_per_kwh (pass1 defaultConfig [⟨exDate, 0, .off_peak, []⟩]
      [((exDate, 0), ⟨0, 1, 0, 1, 9/10⟩)]) = 4/9 := by
  have Hbc : ∀ kb ∈ ([((exDate, 0), ⟨0, 1, 0, 1, 9/10⟩)] :
      List ((Date × Nat) × Bucket)), 0 ≤ kb.2.battery_charge_kwh := by
    intro kb hkb
    simp only [List.mem_cons, List.not_mem_nil, or_false] at hkb
    subst hkb
    norm_num
  have h := C6_pass1_battery_economics defaultConfig [⟨exDate, 0, .off_peak, []⟩]
    [((exDate, 0), ⟨0, 1, 0, 1, 9/10⟩)] Hbc
  refine ⟨Hbc, ?_, ?_⟩
  · rw [h.2.2.2]
    norm_num [specTotalCharge, specTotalDischarge, matchedBuckets, assocFind,
      List.filterMap_cons, exDate]
  · rw [h.2.2.1]
    have hcs : chargeSourceSpec (0 : ℚ) 1 0 1 (9/10) = (0, 1) := by
      norm_num [chargeSourceSpec, max_def, min_def]
    norm_num [specTotalDischarge, specGridChargeCost, matchedBuckets, assocFind,
      List.filterMap_cons, hcs, get_rate, is_summer, defaultConfig, exDate]

/-! ## C7 — opportunity selection and ranking -/

/-- The pre-sort opportunity list of `_build_history` (selection + savings
estimate, in circuit order). -/
def oppsBeforeSort (cfg : Config) (now : Date) (circuits : List Circuit) :
    List Opportunity :=
  circuits.filterMap (fun c =>
    if 20 < c.peak_pct ∧ 1 < c.peak_cost then some (opportunityFor cfg now c)
    else none)

/-- **C7** (confirmed): the opportunities list is a permutation of exactly
the circuits with `peak_pct > 20` and `peak_cost > 1` (each carrying
savings `peak_cost × (1 − off_peak_rate/peak_rate)` at the *current* date's
rates); it is sorted descending by `potential_savings`; and it is stable —
for every savings value, the subsequence of entries with that value equals
the corresponding subsequence of the pre-sort (circuit-order) list. -/
theorem C7_opportunity_ranking (cfg : Config) (now : Date)
    (circuits : List Circuit) :
    List.Perm (buildOpportunities cfg now circuits) (oppsBeforeSort cfg now circuits) ∧
    (buildOpportunities cfg now circuits).Sorted oppOrder ∧
    (∀ o ∈ buildOpportunities cfg now circuits, ∃ c ∈ circuits,
      (20 < c.peak_pct ∧ 1 < c.peak_cost) ∧ o = opportunityFor cfg now c ∧
      o.potential_savings
        = c.peak_cost * (1 - get_rate cfg now .off_peak / get_rate cfg now .peak)) ∧
    (∀ c ∈ circuits, 20 < c.peak_pct → 1 < c.peak_cost →
      opportunityFor cfg now c ∈ buildOpportunities cfg now circuits) ∧
    (∀ v : ℚ,
      (buildOpportunities cfg now circuits).filter
          (fun o => decide (o.potential_savings = v))
        = (oppsBeforeSort cfg now circuits).filter
          (fun o => decide (o.potential_savings = v))) := by
  have hperm : List.Perm (buildOpportunities cfg now circuits)
      (oppsBeforeSort cfg now circuits) :=
    List.perm_insertionSort oppOrder (oppsBeforeSort cfg now circuits)
  refine ⟨hperm, List.sorted_insertionSort oppOrder _, ?_, ?_, ?_⟩
  · intro o ho
    have ho' : o ∈ oppsBeforeSort cfg now circuits := hperm.mem_iff.mp ho
    simp only [oppsBeforeSort, List.mem_filterMap] at ho'
    obtain ⟨c, hc, hoc⟩ := ho'
    by_cases hg : 20 < c.peak_pct ∧ 1 < c.peak_cost
    · rw [if_pos hg] at hoc
      obtain rfl := Option.some.inj hoc
      exact ⟨c, hc, hg, rfl, rfl⟩
    · rw [if_neg hg] at hoc
      cases hoc
  · intro c hc h1 h2
    have : opportunityFor cfg now c ∈ oppsBeforeSort cfg now circuits := by
      simp only [oppsBeforeSort, List.mem_filterMap]
      exact ⟨c, hc, by rw [if_pos ⟨h1, h2⟩]⟩
    exact hperm.mem_iff.mpr this
  · intro v
    set P : Opportunity → Bool := fun o => decide (o.potential_savings = v) with hP
    have hpair : ((oppsBeforeSort cfg now circuits).filter P).Pairwise oppOrder := by
      apply List.pairwise_of_forall_mem_list
      intro a ha b hb
      have hav : a.potential_savings = v := by
        have := (List.mem_filter.mp ha).2
        simpa [hP] using this
      have hbv : b.potential_savings = v := by
        have := (List.mem_filter.mp hb).2
        simpa [hP] using this
      unfold oppOrder
      rw [hav, hbv]
    have hsub : List.Sublist ((oppsBeforeSort cfg now circuits).filter P)
        (buildOpportunities cfg now circuits) :=
      List.sublist_insertionSort hpair (List.filter_sublist _)
    have hsub' : List.Sublist ((oppsBeforeSort cfg now circuits).filter P)
        ((buildOpportunities cfg now circuits).filter P) := by
      have h2 := hsub.filter P
      rwa [List.filter_eq_self.mpr
        (fun a ha => (List.mem_filter.mp ha).2)] at h2
    have hpermf : List.Perm ((buildOpportunities cfg now circuits).filter P)
        ((oppsBeforeSort cfg now circuits).filter P) := hperm.filter P
    exact (hsub'.eq_of_length hpermf.length_eq.symm).symm

/-- Circuits for the C7 witness: A and B qualify (peak percent > 20, peak
cost > $1), C does not. -/
def c7Circuits : List Circuit :=
  [⟨"A", 30, 2, 5, 1⟩, ⟨"B", 40, 10, 20, 3⟩, ⟨"C", 10, 50, 60, 9⟩]

/-- Witness for `C7_opportunity_ranking`: circuit B qualifies and its
opportunity appears in the ranked output. -/
theorem C7_witness :
    (20 < (⟨"B", 40, 10, 20, 3⟩ : Circuit).peak_pct ∧
      1 < (⟨"B", 40, 10, 20, 3⟩ : Circuit).peak_cost) ∧
    opportunityFor defaultConfig exDate ⟨"B", 40, 10, 20, 3⟩
      ∈ buildOpportunities defaultConfig exDate c7Circuits := by
  have h := C7_opportunity_ranking defaultConfig exDate c7Circuits
  refine ⟨⟨by norm_num, by norm_num⟩, ?_⟩
  exact h.2.2.2.1 ⟨"B", 40, 10, 20, 3⟩ (by simp [c7Circuits]) (by norm_num)
    (by norm_num)

/-! ## C10 — hour-boundary interpolation conserves energy -/

/-- The segment lengths of the hour walk cover exactly the sample
interval. -/
theorem hourSegs_sum_fuel : ∀ (n t curr : Nat), curr - t ≤ n →
    ((hourSegs t curr).map (fun sg => sg.2)).sum = curr - t := by
  intro n
  induction n with
  | zero =>
      intro t curr hle
      have hnot : ¬ t < curr := by omega
      rw [hourSegs, dif_neg hnot]
      simp only [List.map_nil, List.sum_nil]
      omega
  | succ n ih =>
      intro t curr hle
      by_cases h : t < curr
      · rw [hourSegs, dif_pos h]
        have hb : t < (t / 3600 + 1) * 3600 := by
          have h1 := (Nat.div_lt_iff_lt_mul (by norm_num : 0 < 3600)).mp
            (Nat.lt_succ_self (t / 3600))
          omega
        have h1 : t < min ((t / 3600 + 1) * 3600) curr := lt_min hb h
        have h2 : min ((t / 3600 + 1) * 3600) curr ≤ curr := min_le_right _ _
        simp only [List.map_cons, List.sum_cons]
        rw [ih (min ((t / 3600 + 1) * 3600) curr) curr (by omega)]
        omega
      · rw [hourSegs, dif_neg h]
        simp only [List.map_nil, List.sum_nil]
        omega

/-- `hourSegs` covers `[t, curr)` without loss or double counting. -/
theorem hourSegs_sum (t curr : Nat) :
    ((hourSegs t curr).map (fun sg => sg.2)).sum = curr - t :=
  hourSegs_sum_fuel (curr - t) t curr le_rfl

/-- The portions of one positive-delta pair sum exactly to the delta. -/
theorem pairPortions_sum : ∀ p c : Nat × ℚ, p.1 ≤ c.1 → 0 < c.2 - p.2 →
    ((pairPortions p c).map (fun kv => kv.2)).sum = c.2 - p.2 := by
  intro p c hle hdelta
  unfold pairPortions
  rw [if_neg (not_le.mpr hdelta)]
  by_cases hk : hourKeyOf p.1 = hourKeyOf c.1
  · rw [if_pos hk]
    simp
  · rw [if_neg hk]
    have hlt : p.1 < c.1 := by
      rcases Nat.lt_or_ge p.1 c.1 with h | h
      · exact h
      · exact absurd (by rw [le_antisymm hle h]) hk
    have hne : ¬ (c.1 - p.1 = 0) := by omega
    rw [if_neg hne]
    have key : ∀ (L : List (Nat × Nat)),
        ((L.map (fun sg =>
            (hourKeyOf sg.1, (c.2 - p.2) * (sg.2 : ℚ) / ((c.1 - p.1 : Nat) : ℚ)))).map
          (fun kv => kv.2)).sum
          = (c.2 - p.2) * (((L.map (fun sg => sg.2)).sum : Nat) : ℚ)
            / ((c.1 - p.1 : Nat) : ℚ) := by
      intro L
      induction L with
      | nil => simp
      | cons a t ih =>
          simp only [List.map_cons, List.sum_cons, ih, Nat.cast_add]
          ring
    rw [key (hourSegs p.1 c.1), hourSegs_sum]
    have hT : ((c.1 - p.1 : Nat) : ℚ) ≠ 0 := Nat.cast_ne_zero.mpr hne
    rw [mul_div_assoc, div_self hT, mul_one]

/-- Adjacent pairs of a sorted list are related. -/
theorem sorted_zip_tail {α : Type} {r : α → α → Prop} :
    ∀ {l : List α}, l.Sorted r → ∀ pr ∈ l.zip l.tail, r pr.1 pr.2 := by
  intro l
  induction l with
  | nil => intro _ pr hpr; cases hpr
  | cons a t ih =>
      intro hs pr hpr
      cases t with
      | nil => cases hpr
      | cons b t' =>
          simp only [List.tail_cons, List.zip_cons_cons, List.mem_cons] at hpr
          rcases hpr with rfl | hmem
          · exact List.rel_of_sorted_cons hs b (List.mem_cons_self b t')
          · exact ih hs.of_cons pr hmem

/-- `addPortion` adds exactly the portion to the bucket dictionary's value
total. -/
theorem addPortion_sum (bs : List ((Nat × Nat) × ℚ)) (key : Nat × Nat) (v : ℚ) :
    ((addPortion bs key v).map (fun kv => kv.2)).sum
      = (bs.map (fun kv => kv.2)).sum + v := by
  induction bs with
  | nil => simp [addPortion]
  | cons kv rest ih =>
      by_cases h : kv.1 = key
      · simp only [addPortion, if_pos h, List.map_cons, List.sum_cons]
        ring
      · simp only [addPortion, if_neg h, List.map_cons, List.sum_cons, ih]
        ring

/-- Folding contributions into the bucket dictionary preserves the value
total. -/
theorem accumulatePortions_sum (contribs : List ((Nat × Nat) × ℚ)) :
    ((accumulatePortions contribs).map (fun kv => kv.2)).sum
      = (contribs.map (fun kv => kv.2)).sum := by
  suffices h : ∀ bs : List ((Nat × Nat) × ℚ),
      (((contribs.foldl (fun bs kv => addPortion bs kv.1 kv.2) bs)).map
        (fun kv => kv.2)).sum
        = (bs.map (fun kv => kv.2)).sum + (contribs.map (fun kv => kv.2)).sum by
    simpa [accumulatePortions] using h []
  induction contribs with
  | nil => intro bs; simp
  | cons a t ih =>
      intro bs
      simp only [List.foldl_cons, List.map_cons, List.sum_cons]
      rw [ih (addPortion bs a.1 a.2), addPortion_sum]
      ring

/-- **C10** (confirmed): for every consecutive sample pair with a strictly
positive delta, the hour-aligned portions sum exactly to that delta; hence
the bucket dictionary's total over all buckets equals the sum of the
positive pairwise deltas of the sorted samples (exactly, over ℚ). -/
theorem C10_interpolation_conservation :
    (∀ p c : Nat × ℚ, p.1 ≤ c.1 → 0 < c.2 - p.2 →
      ((pairPortions p c).map (fun kv => kv.2)).sum = c.2 - p.2) ∧
    (∀ history : List (Nat × ℚ),
      ((hourlyBucketsOf history).map (fun kv => kv.2)).sum
        = (((history.insertionSort tsLE).zip
              (history.insertionSort tsLE).tail).map
            (fun pr => if 0 < pr.2.2 - pr.1.2 then pr.2.2 - pr.1.2 else 0)).sum) := by
  refine ⟨pairPortions_sum, ?_⟩
  intro history
  unfold hourlyBucketsOf process_cumulative
  by_cases hlen : history.length < 2
  · rw [if_pos hlen]
    have hsl : (history.insertionSort tsLE).length < 2 := by
      rw [List.length_insertionSort]
      exact hlen
    rcases hs : history.insertionSort tsLE with _ | ⟨a, _ | ⟨b, t⟩⟩
    · simp [accumulatePortions]
    · simp [accumulatePortions]
    · rw [hs] at hsl
      simp only [List.length_cons] at hsl
      omega
  · rw [if_neg hlen]
    rw [accumulatePortions_sum]
    show (List.map (fun kv => kv.2)
      ((((history.insertionSort tsLE).zip (history.insertionSort tsLE).tail).map
        (fun pr => pairPortions pr.1 pr.2)).flatten)).sum = _
    have hsorted : (history.insertionSort tsLE).Sorted tsLE :=
      List.sorted_insertionSort tsLE history
    have hadj := sorted_zip_tail hsorted
    have keyf : ∀ (L : List ((Nat × ℚ) × (Nat × ℚ))), (∀ pr ∈ L, tsLE pr.1 pr.2) →
        (((L.map (fun pr => pairPortions pr.1 pr.2)).flatten).map
          (fun kv => kv.2)).sum
        = (L.map (fun pr =>
            if 0 < pr.2.2 - pr.1.2 then pr.2.2 - pr.1.2 else 0)).sum := by
      intro L
      induction L with
      | nil => intro _; simp
      | cons pr rest ih =>
          intro hL
          simp only [List.map_cons, List.flatten_cons, List.map_append,
            List.sum_append, List.sum_cons]
          rw [ih (fun x hx => hL x (List.mem_cons_of_mem pr hx))]
          congr 1
          by_cases hd : 0 < pr.2.2 - pr.1.2
          · rw [if_pos hd]
            exact pairPortions_sum pr.1 pr.2 (hL pr (List.mem_cons_self pr rest)) hd
          · rw [if_neg hd]
            unfold pairPortions
            rw [if_pos (not_lt.mp hd)]
            simp
    exact keyf _ hadj

/-- Witness for `C10_interpolation_conservation`: a delta of 1 spanning the
boundary between hour 0 and hour 1 (samples at t=0 and t=5400s) is split
2/3 : 1/3 and sums back to exactly 1. -/
theorem C10_witness :
    ((0, (0 : ℚ)) : Nat × ℚ).1 ≤ ((5400, (1 : ℚ)) : Nat × ℚ).1 ∧
    (0 : ℚ) < ((5400, (1 : ℚ)) : Nat × ℚ).2 - ((0, (0 : ℚ)) : Nat × ℚ).2 ∧
    ((pairPortions (0, 0) (5400, 1)).map (fun kv => kv.2)).sum
      = ((5400, (1 : ℚ)) : Nat × ℚ).2 - ((0, (0 : ℚ)) : Nat × ℚ).2 :=
  ⟨by norm_num, by norm_num,
    C10_interpolation_conservation.1 (0, 0) (5400, 1) (by norm_num) (by norm_num)⟩

end EnergyDashboard
